import Mathlib

/-!
Shallow embedding of the task-management server core
(`src/server/controllers/authController.js` task handlers,
`src/server/controllers/userController.js`, the Mongoose task schema in
`src/unnamed/part_000`, and the admin gate in
`src/server/middleware/auth.js`).

Stores are lists of records; each mutating handler returns the new store
together with a discriminated success/failure outcome, mirroring the
single JSON response each Express handler sends.
-/

namespace TaskMgmt

/-- Task status enum from the schema: pending, in-progress, completed, cancelled. -/
inductive Status where
  | pending
  | inProgress
  | completed
  | cancelled
deriving DecidableEq

/-- Task priority enum from the schema: low, medium, high, urgent. -/
inductive Priority where
  | low
  | medium
  | high
  | urgent
deriving DecidableEq

/-- User role enum from the User schema: user, admin. -/
inductive Role where
  | user
  | admin
deriving DecidableEq

/-- A stored task record (fields of the Mongoose task schema used by the handlers). -/
structure Task where
  id : String
  title : String
  description : String
  dueDate : Int
  status : Status
  priority : Priority
  createdBy : String
  assignedTo : String
  completedAt : Option Int
  tags : List String
deriving DecidableEq

/-- A stored user record (fields of the User schema used by the handlers). -/
structure UserRec where
  id : String
  username : String
  email : String
  firstName : Option String
  lastName : Option String
  role : Role
  isActive : Bool
deriving DecidableEq

/-- The authenticated actor attached to a request by the auth middleware. -/
structure Actor where
  id : String
  role : Role
deriving DecidableEq

/-- Failure outcomes of a handler, by HTTP class: 400 validation, 403 forbidden,
404 not found. -/
inductive Failure where
  | validation (msg : String)
  | forbidden (msg : String)
  | notFound (msg : String)
deriving DecidableEq

deriving instance DecidableEq for Except

/-- Hex-digit test used by ObjectId validity. -/
def isHexDigit (c : Char) : Bool :=
  (('0' ≤ c && c ≤ '9') || ('a' ≤ c && c ≤ 'f') || ('A' ≤ c && c ≤ 'F'))

/-- `mongoose.Types.ObjectId.isValid` on strings: a 24-character hex string,
or any 12-character string (interpreted as 12 raw bytes). -/
def isValidObjectId (s : String) : Bool :=
  (s.length == 24 && s.toList.all isHexDigit) || s.length == 12

/-- `Task.findById`: the stored task whose id equals the given id, if any. -/
def findTask (ts : List Task) (id : String) : Option Task :=
  ts.find? (fun t => decide (t.id = id))

/-- `User.findById` over the user store. -/
def findUserRec (us : List UserRec) (id : String) : Option UserRec :=
  us.find? (fun u => decide (u.id = id))

/-- Write-back of a saved/updated task record into the store (by id). -/
def storeReplace (ts : List Task) (t : Task) : List Task :=
  ts.map (fun u => if u.id = t.id then t else u)

/-- Write-back of an updated user record into the store (by id). -/
def storeReplaceUser (us : List UserRec) (u : UserRec) : List UserRec :=
  us.map (fun v => if v.id = u.id then u else v)

/-- The `taskSchema.pre('save')` hook: when the status path is modified,
set `completedAt` to now on entering `completed` (if it was unset), and
clear it whenever the (new) status is not `completed`. `statusModified`
is Mongoose's `isModified('status')`, which is false when the assigned
status equals the stored one. -/
def presaveCompletedAt (statusModified : Bool) (now : Int) (t : Task) : Task :=
  if statusModified then
    if t.status = Status.completed ∧ t.completedAt = none then
      { t with completedAt := some now }
    else if t.status ≠ Status.completed then
      { t with completedAt := none }
    else t
  else t

/-- Status strings accepted by `updateTaskStatus` (`validStatuses`). -/
def statusOfString (s : String) : Option Status :=
  if s = "pending" then some Status.pending
  else if s = "in-progress" then some Status.inProgress
  else if s = "completed" then some Status.completed
  else if s = "cancelled" then some Status.cancelled
  else none

/-- `getTaskById`: ObjectId check, lookup, then the non-admin
creator-or-assignee permission check. Reads do not change the store. -/
def getTaskByIdRun (ts : List Task) (actor : Actor) (id : String) :
    Except Failure Task :=
  if isValidObjectId id then
    match findTask ts id with
    | none => Except.error (Failure.notFound "Task not found")
    | some task =>
      if actor.role ≠ Role.admin ∧ task.assignedTo ≠ actor.id ∧ task.createdBy ≠ actor.id then
        Except.error (Failure.forbidden "Access denied")
      else
        Except.ok task
  else
    Except.error (Failure.validation "Invalid task ID")

/-- The partial update body of `updateTask` (absent fields are left alone). -/
structure TaskPatch where
  title : Option String := none
  description : Option String := none
  dueDate : Option Int := none
  priority : Option Priority := none
  status : Option Status := none
  assignedTo : Option String := none
  tags : Option (List String) := none
deriving DecidableEq

/-- Field-wise application of an update body, as `findByIdAndUpdate` applies
its `updateData` patch. -/
def applyPatch (t : Task) (p : TaskPatch) : Task :=
  { t with
    title := p.title.getD t.title
    description := p.description.getD t.description
    dueDate := p.dueDate.getD t.dueDate
    priority := p.priority.getD t.priority
    status := p.status.getD t.status
    assignedTo := p.assignedTo.getD t.assignedTo
    tags := p.tags.getD t.tags }

/-- `updateTask`: ObjectId check, lookup, creator-or-assignee-or-admin
permission, assignee-existence check, then `findByIdAndUpdate`. Note that
`findByIdAndUpdate` applies the patch directly and does not run the
`pre('save')` hook, so `completedAt` is left exactly as stored. -/
def updateTaskRun (ts : List Task) (us : List UserRec) (actor : Actor)
    (id : String) (p : TaskPatch) : List Task × Except Failure Task :=
  if isValidObjectId id then
    match findTask ts id with
    | none => (ts, Except.error (Failure.notFound "Task not found"))
    | some task =>
      if actor.role ≠ Role.admin ∧ task.assignedTo ≠ actor.id ∧ task.createdBy ≠ actor.id then
        (ts, Except.error (Failure.forbidden "Access denied"))
      else
        match p.assignedTo with
        | some a =>
          if a ≠ task.assignedTo ∧ findUserRec us a = none then
            (ts, Except.error (Failure.validation "Assigned user not found"))
          else
            let t' := applyPatch task p
            (storeReplace ts t', Except.ok t')
        | none =>
          let t' := applyPatch task p
          (storeReplace ts t', Except.ok t')
  else
    (ts, Except.error (Failure.validation "Invalid task ID"))

/-- `deleteTask`: ObjectId check, lookup, creator-or-admin permission,
then `findByIdAndDelete`. -/
def deleteTaskRun (ts : List Task) (actor : Actor) (id : String) :
    List Task × Except Failure Unit :=
  if isValidObjectId id then
    match findTask ts id with
    | none => (ts, Except.error (Failure.notFound "Task not found"))
    | some task =>
      if actor.role ≠ Role.admin ∧ task.createdBy ≠ actor.id then
        (ts, Except.error (Failure.forbidden "Only task creator or admin can delete tasks"))
      else
        (ts.filter (fun t => decide (t.id ≠ id)), Except.ok ())
  else
    (ts, Except.error (Failure.validation "Invalid task ID"))

/-- `updateTaskStatus`: ObjectId check, status-enum check, lookup,
assignee-or-creator-or-admin permission, then `task.status = status` and
`task.save()`, which runs the `pre('save')` hook. Mongoose marks the
status path modified only when the assigned value differs from the
stored one. -/
def updateTaskStatusRun (ts : List Task) (actor : Actor) (id : String)
    (statusStr : String) (now : Int) : List Task × Except Failure Task :=
  if isValidObjectId id then
    match statusOfString statusStr with
    | none =>
      (ts, Except.error (Failure.validation
        "Invalid status. Must be one of: pending, in-progress, completed, cancelled"))
    | some st =>
      match findTask ts id with
      | none => (ts, Except.error (Failure.notFound "Task not found"))
      | some task =>
        if actor.role ≠ Role.admin ∧ task.assignedTo ≠ actor.id ∧ task.createdBy ≠ actor.id then
          (ts, Except.error (Failure.forbidden "Access denied"))
        else
          let saved := presaveCompletedAt (decide (task.status ≠ st)) now
            { task with status := st }
          (storeReplace ts saved, Except.ok saved)
  else
    (ts, Except.error (Failure.validation "Invalid task ID"))

/-- Case-insensitive leading-segment match of `needle` against `hay`. -/
def matchesAt (needle hay : List Char) : Bool :=
  match needle, hay with
  | [], _ => true
  | _ :: _, [] => false
  | a :: as, b :: bs => a == b && matchesAt as bs

/-- Does `needle` occur as a contiguous run inside `hay`? -/
def containsSeq (needle hay : List Char) : Bool :=
  match hay with
  | [] => matchesAt needle []
  | _ :: bs => matchesAt needle hay || containsSeq needle bs

/-- Mongo `$regex` with `$options: 'i'` on a literal search string:
case-insensitive substring containment. -/
def containsCI (hay needle : String) : Bool :=
  containsSeq needle.toLower.toList hay.toLower.toList

/-- Sortable task fields reachable through `sortBy` (default `dueDate`). -/
inductive SortField where
  | dueDate
  | priorityField
  | statusField
deriving DecidableEq

/-- `sortOrder` query parameter: `asc` unless `desc` is supplied. -/
inductive SortOrder where
  | asc
  | desc
deriving DecidableEq

/-- BSON stores priorities as strings, so Mongo orders them by the
lexicographic order of the enum names: high < low < medium < urgent. -/
def priorityRank : Priority → Int
  | Priority.high => 0
  | Priority.low => 1
  | Priority.medium => 2
  | Priority.urgent => 3

/-- Lexicographic order of the status enum names:
cancelled < completed < in-progress < pending. -/
def statusRank : Status → Int
  | Status.cancelled => 0
  | Status.completed => 1
  | Status.inProgress => 2
  | Status.pending => 3

/-- The sort key a task contributes for a given sortable field. -/
def sortKey : SortField → Task → Int
  | SortField.dueDate, t => t.dueDate
  | SortField.priorityField, t => priorityRank t.priority
  | SortField.statusField, t => statusRank t.status

/-- Pairwise comparison used by the store's sort for the chosen field and order. -/
def taskOrd (f : SortField) (ord : SortOrder) (a b : Task) : Bool :=
  match ord with
  | SortOrder.asc => decide (sortKey f a ≤ sortKey f b)
  | SortOrder.desc => decide (sortKey f b ≤ sortKey f a)

/-- The store's sort: a stable sort by the requested field and order
(ties keep the store's natural order). -/
def sortTasks (f : SortField) (ord : SortOrder) (ts : List Task) : List Task :=
  List.insertionSort (fun a b => taskOrd f ord a b = true) ts

/-- Query parameters of `getTasks` with their defaults. -/
structure ListParams where
  page : Nat := 1
  limit : Nat := 10
  status : Option Status := none
  priority : Option Priority := none
  assignedTo : Option String := none
  search : Option String := none
  sortBy : SortField := SortField.dueDate
  sortOrder : SortOrder := SortOrder.asc
deriving DecidableEq

/-- The Mongo filter `getTasks` builds: non-admin actors have `assignedTo`
forced to their own id; admins may filter by a supplied `assignedTo`;
then status, priority, and the case-insensitive title/description search. -/
def matchesTaskQuery (actor : Actor) (p : ListParams) (t : Task) : Bool :=
  (if actor.role ≠ Role.admin then decide (t.assignedTo = actor.id)
   else
     match p.assignedTo with
     | some a => decide (t.assignedTo = a)
     | none => true) &&
  (match p.status with
   | some s => decide (t.status = s)
   | none => true) &&
  (match p.priority with
   | some pr => decide (t.priority = pr)
   | none => true) &&
  (match p.search with
   | some s => containsCI t.title s || containsCI t.description s
   | none => true)

/-- `Math.ceil(total / limit)` on naturals (exact for `limit ≥ 1`). -/
def ceilDiv (a b : Nat) : Nat := (a + b - 1) / b

/-- The pagination block `getTasks` returns. -/
structure Pagination where
  currentPage : Nat
  totalPages : Nat
  totalTasks : Nat
  hasNext : Bool
  hasPrev : Bool
deriving DecidableEq

/-- `getTasks`: filter, sort, `skip((page-1)*limit).limit(limit)`, and the
pagination metadata computed from `countDocuments`. -/
def getTasksRun (ts : List Task) (actor : Actor) (p : ListParams) :
    List Task × Pagination :=
  let filtered := ts.filter (matchesTaskQuery actor p)
  let sorted := sortTasks p.sortBy p.sortOrder filtered
  let pageTasks := (sorted.drop ((p.page - 1) * p.limit)).take p.limit
  let total := filtered.length
  let totalPages := ceilDiv total p.limit
  (pageTasks,
   { currentPage := p.page
     totalPages := totalPages
     totalTasks := total
     hasNext := decide (p.page < totalPages)
     hasPrev := decide (1 < p.page) })

/-- Milliseconds per day, the divisor in the `daysUntilDue` virtual. -/
def msPerDay : Int := 86400000

/-- The calendar day an epoch-millisecond timestamp falls on
(`setHours(0,0,0,0)` floors to the start of that day). -/
def dayIndex (x : Int) : Int := x / msPerDay

/-- Start-of-day timestamp, as `new Date(x).setHours(0,0,0,0)` produces. -/
def startOfDay (x : Int) : Int := dayIndex x * msPerDay

/-- `Math.ceil(a / b)` on integers for a positive divisor. -/
def jsCeilDiv (a b : Int) : Int := -((-a) / b)

/-- The `isOverdue` virtual: false for completed tasks, otherwise
`new Date() > dueDate`. -/
def isOverdue (t : Task) (now : Int) : Bool :=
  if t.status = Status.completed then false else decide (t.dueDate < now)

/-- The `daysUntilDue` virtual: ceiling of the millisecond gap between the
due date's start of day and today's start of day, in days. -/
def daysUntilDue (t : Task) (now : Int) : Int :=
  jsCeilDiv (startOfDay t.dueDate - startOfDay now) msPerDay

/-- The `priorityColor` virtual's lookup table. -/
def priorityColor (p : Priority) : String :=
  match p with
  | Priority.low => "#10B981"
  | Priority.medium => "#F59E0B"
  | Priority.high => "#F97316"
  | Priority.urgent => "#EF4444"

/-- The `adminAuth` middleware guarding every user-management route:
non-admin actors are denied with 403. -/
def adminAuth (actor : Actor) : Except Failure Unit :=
  if actor.role ≠ Role.admin then
    Except.error (Failure.forbidden "Admin access required")
  else
    Except.ok ()

/-- The per-status task statistics block `getUserById` aggregates, grouped
over tasks matched by `assignedTo` only. -/
structure TaskStats where
  total : Nat
  pending : Nat
  inProgress : Nat
  completed : Nat
  cancelled : Nat
deriving DecidableEq

/-- The `Task.aggregate` pipeline of `getUserById`: `$match` on
`assignedTo`, then counts grouped by status. -/
def taskStatsFor (tasks : List Task) (uid : String) : TaskStats :=
  let assigned := tasks.filter (fun t => decide (t.assignedTo = uid))
  { total := assigned.length
    pending := (assigned.filter (fun t => decide (t.status = Status.pending))).length
    inProgress := (assigned.filter (fun t => decide (t.status = Status.inProgress))).length
    completed := (assigned.filter (fun t => decide (t.status = Status.completed))).length
    cancelled := (assigned.filter (fun t => decide (t.status = Status.cancelled))).length }

/-- `getUserById` behind `adminAuth`: ObjectId check, lookup, then the
user together with their assigned-task statistics. -/
def getUserByIdRun (us : List UserRec) (tasks : List Task) (actor : Actor)
    (id : String) : Except Failure (UserRec × TaskStats) :=
  if actor.role ≠ Role.admin then
    Except.error (Failure.forbidden "Admin access required")
  else
    if isValidObjectId id then
      match findUserRec us id with
      | none => Except.error (Failure.notFound "User not found")
      | some u => Except.ok (u, taskStatsFor tasks id)
    else
      Except.error (Failure.validation "Invalid user ID")

/-- The partial update body of `updateUser`. -/
structure UserPatch where
  username : Option String := none
  email : Option String := none
  firstName : Option String := none
  lastName : Option String := none
  role : Option Role := none
  isActive : Option Bool := none
deriving DecidableEq

/-- Field-wise application of `updateUser`'s patch. -/
def applyUserPatch (u : UserRec) (p : UserPatch) : UserRec :=
  { u with
    username := p.username.getD u.username
    email := p.email.getD u.email
    firstName := if p.firstName.isSome then p.firstName else u.firstName
    lastName := if p.lastName.isSome then p.lastName else u.lastName
    role := p.role.getD u.role
    isActive := p.isActive.getD u.isActive }

/-- `updateUser`'s username uniqueness probe: a changed username that some
other stored record already holds. -/
def usernameTaken (us : List UserRec) (id : String) (u : UserRec)
    (p : UserPatch) : Bool :=
  match p.username with
  | some un =>
    decide (un ≠ u.username) &&
      us.any (fun v => decide (v.username = un ∧ v.id ≠ id))
  | none => false

/-- `updateUser`'s email uniqueness probe, analogous to the username one. -/
def emailTaken (us : List UserRec) (id : String) (u : UserRec)
    (p : UserPatch) : Bool :=
  match p.email with
  | some em =>
    decide (em ≠ u.email) &&
      us.any (fun v => decide (v.email = em ∧ v.id ≠ id))
  | none => false

/-- `updateUser` behind `adminAuth`: ObjectId check, lookup, the
self-deactivation guard, username/email uniqueness checks, then
`findByIdAndUpdate`. -/
def updateUserRun (us : List UserRec) (actor : Actor) (id : String)
    (p : UserPatch) : List UserRec × Except Failure UserRec :=
  if actor.role ≠ Role.admin then
    (us, Except.error (Failure.forbidden "Admin access required"))
  else
    if isValidObjectId id then
      match findUserRec us id with
      | none => (us, Except.error (Failure.notFound "User not found"))
      | some u =>
        if u.id = actor.id ∧ p.isActive = some false then
          (us, Except.error (Failure.validation "You cannot deactivate your own account"))
        else if usernameTaken us id u p then
          (us, Except.error (Failure.validation "Username is already taken"))
        else if emailTaken us id u p then
          (us, Except.error (Failure.validation "Email is already taken"))
        else
          let u' := applyUserPatch u p
          (storeReplaceUser us u', Except.ok u')
    else
      (us, Except.error (Failure.validation "Invalid user ID"))

/-- The conflict message `deleteUser` produces when tasks still reference
the user. -/
def deleteConflictMsg (n : Nat) : String :=
  "Cannot delete user. They have " ++ toString n ++
    " task(s) associated with them. Please reassign or delete those tasks first."

/-- `deleteUser`'s reference count: tasks whose assignee **or** creator is
the user (`$or` query). -/
def countUserTasks (tasks : List Task) (id : String) : Nat :=
  (tasks.filter (fun t => decide (t.assignedTo = id ∨ t.createdBy = id))).length

/-- `deleteUser` behind `adminAuth`: ObjectId check, lookup, the
self-deletion guard, the referencing-task count guard, then
`findByIdAndDelete`. -/
def deleteUserRun (us : List UserRec) (tasks : List Task) (actor : Actor)
    (id : String) : List UserRec × Except Failure Unit :=
  if actor.role ≠ Role.admin then
    (us, Except.error (Failure.forbidden "Admin access required"))
  else
    if isValidObjectId id then
      match findUserRec us id with
      | none => (us, Except.error (Failure.notFound "User not found"))
      | some u =>
        if u.id = actor.id then
          (us, Except.error (Failure.validation "You cannot delete your own account"))
        else if 0 < countUserTasks tasks id then
          (us, Except.error (Failure.validation (deleteConflictMsg (countUserTasks tasks id))))
        else
          (us.filter (fun v => decide (v.id ≠ id)), Except.ok ())
    else
      (us, Except.error (Failure.validation "Invalid user ID"))

/-! ### Concrete fixtures used by witnesses -/

/-- A 24-hex-character task id. -/
def taskIdA : String := "aaaaaaaaaaaaaaaaaaaaaaaa"

/-- Id of the user who created and is assigned the sample task. -/
def userIdOwner : String := "bbbbbbbbbbbbbbbbbbbbbbbb"

/-- Id of an unrelated non-admin user. -/
def userIdOther : String := "cccccccccccccccccccccccc"

/-- Id of the administrator. -/
def userIdAdmin : String := "dddddddddddddddddddddddd"

/-- A pending task created by and assigned to the owner user. -/
def sampleTask : Task :=
  { id := taskIdA, title := "Ship report", description := "Quarterly report"
    dueDate := 86400000, status := Status.pending, priority := Priority.high
    createdBy := userIdOwner, assignedTo := userIdOwner
    completedAt := none, tags := [] }

/-- `sampleTask` after `setTaskStatus(..., "completed")` at time 7. -/
def sampleDone : Task :=
  { sampleTask with status := Status.completed, completedAt := some 7 }

/-- The administrator actor. -/
def adminActor : Actor := { id := userIdAdmin, role := Role.admin }

/-- The creator/assignee of `sampleTask`, as a non-admin actor. -/
def ownerActor : Actor := { id := userIdOwner, role := Role.user }

/-- A non-admin actor unrelated to `sampleTask`. -/
def strangerActor : Actor := { id := userIdOther, role := Role.user }

/-- The administrator's stored user record. -/
def adminRec : UserRec :=
  { id := userIdAdmin, username := "root", email := "root@example.com"
    firstName := none, lastName := none, role := Role.admin, isActive := true }

/-- The owner's stored user record. -/
def ownerRec : UserRec :=
  { id := userIdOwner, username := "alice", email := "alice@example.com"
    firstName := none, lastName := none, role := Role.user, isActive := true }

/-- The unrelated user's stored record. -/
def otherRec : UserRec :=
  { id := userIdOther, username := "bob", email := "bob@example.com"
    firstName := none, lastName := none, role := Role.user, isActive := true }

/-- The user store holding the three fixture users. -/
def usersStore : List UserRec := [adminRec, ownerRec, otherRec]

/-- Id of a non-admin user unrelated to every fixture task. -/
def outsiderId : String := "eeeeeeeeeeeeeeeeeeeeeeee"

/-- A non-admin actor who is neither creator nor assignee of any fixture task. -/
def outsiderActor : Actor := { id := outsiderId, role := Role.user }

/-- A task created by the unrelated user but assigned to the owner. -/
def sharedTask : Task := { sampleTask with createdBy := userIdOther }

/-! ### Helper lemmas -/

theorem presave_status (b : Bool) (now : Int) (t : Task) :
    (presaveCompletedAt b now t).status = t.status := by
  unfold presaveCompletedAt
  split
  · split
    · rfl
    · split
      · rfl
      · rfl
  · rfl

theorem presave_id (b : Bool) (now : Int) (t : Task) :
    (presaveCompletedAt b now t).id = t.id := by
  unfold presaveCompletedAt
  split
  · split
    · rfl
    · split
      · rfl
      · rfl
  · rfl

theorem presave_assignedTo (b : Bool) (now : Int) (t : Task) :
    (presaveCompletedAt b now t).assignedTo = t.assignedTo := by
  unfold presaveCompletedAt
  split
  · split
    · rfl
    · split
      · rfl
      · rfl
  · rfl

theorem presave_createdBy (b : Bool) (now : Int) (t : Task) :
    (presaveCompletedAt b now t).createdBy = t.createdBy := by
  unfold presaveCompletedAt
  split
  · split
    · rfl
    · split
      · rfl
      · rfl
  · rfl

theorem with_status_self {t : Task} {st : Status} (h : t.status = st) :
    { t with status := st } = t := by
  cases t
  simp_all

theorem findTask_storeReplace {ts : List Task} {id : String} {task saved : Task}
    (hfind : findTask ts id = some task) (hid : saved.id = task.id) :
    findTask (storeReplace ts saved) id = some saved := by
  have htid : task.id = id := by
    have hp := List.find?_some (show ts.find? (fun t => decide (t.id = id)) = some task
      from hfind)
    exact of_decide_eq_true hp
  have hsid : saved.id = id := by rw [hid, htid]
  induction ts with
  | nil => simp [findTask] at hfind
  | cons u us ih =>
    rw [show findTask (u :: us) id = (u :: us).find? (fun t => decide (t.id = id))
      from rfl] at hfind
    by_cases hu : u.id = id
    · have hcond : u.id = saved.id := by rw [hsid]; exact hu
      show ((if u.id = saved.id then saved else u) ::
        us.map (fun v => if v.id = saved.id then saved else v)).find?
          (fun t => decide (t.id = id)) = some saved
      rw [if_pos hcond]
      exact List.find?_cons_of_pos _ (decide_eq_true hsid)
    · rw [List.find?_cons_of_neg _ (by simpa using hu)] at hfind
      have h1 : findTask us id = some task := hfind
      have hcond : ¬ u.id = saved.id := by rw [hsid]; exact hu
      show ((if u.id = saved.id then saved else u) ::
        us.map (fun v => if v.id = saved.id then saved else v)).find?
          (fun t => decide (t.id = id)) = some saved
      rw [if_neg hcond]
      rw [List.find?_cons_of_neg _ (by simpa using hu)]
      exact ih h1

theorem storeReplace_self (ts : List Task) (t : Task) :
    storeReplace (storeReplace ts t) t = storeReplace ts t := by
  unfold storeReplace
  rw [List.map_map]
  apply List.map_congr_left
  intro u _
  by_cases h : u.id = t.id <;> simp [Function.comp, h]

/-! ### C1 -/

/-- C1: falsified at a concrete input. A general `updateTask` that bundles a
status change goes through `findByIdAndUpdate`, which does not run the
`pre('save')` hook: updating the pending `sampleTask` to `completed` stores
`status = completed` with `completedAt` still null, so the invariant
"`completedAt` non-null iff `status == completed`" does not survive this
status write. -/
theorem updateTask_bypasses_completedAt_hook :
    ∃ t', updateTaskRun [sampleTask] [] adminActor taskIdA
        { status := some Status.completed } = ([t'], Except.ok t') ∧
      t'.status = Status.completed ∧ t'.completedAt = none := by
  refine ⟨applyPatch sampleTask { status := some Status.completed }, ?_, rfl, rfl⟩
  decide

/-! ### C2 -/

/-- C2: on every save path (`task.save()`), the `pre('save')` hook gives:
a modified status equal to `completed` with a previously null `completedAt`
sets `completedAt` to now; a modified status other than `completed` clears
`completedAt`; an unmodified status leaves `completedAt` untouched; and
`setTaskStatus` with the same status twice is idempotent, also on
`completedAt`. -/
theorem presave_completedAt_correct :
    (∀ (t : Task) (now : Int),
      (t.status = Status.completed → t.completedAt = none →
        (presaveCompletedAt true now t).completedAt = some now) ∧
      (t.status ≠ Status.completed →
        (presaveCompletedAt true now t).completedAt = none) ∧
      ((presaveCompletedAt false now t).completedAt = t.completedAt)) ∧
    (∀ (ts : List Task) (actor : Actor) (id s : String) (now nowLater : Int)
        (ts2 : List Task) (task2 : Task),
      updateTaskStatusRun ts actor id s now = (ts2, Except.ok task2) →
      updateTaskStatusRun ts2 actor id s nowLater = (ts2, Except.ok task2)) := by
  constructor
  · intro t now
    refine ⟨?_, ?_, rfl⟩
    · intro h1 h2
      simp [presaveCompletedAt, h1, h2]
    · intro h
      simp [presaveCompletedAt, h]
  · intro ts actor id s now nowLater ts2 task2 h
    unfold updateTaskStatusRun at h
    by_cases hv : isValidObjectId id = true
    case neg => simp [hv] at h
    rw [if_pos hv] at h
    cases hs : statusOfString s with
    | none => simp only [hs] at h; simp at h
    | some st =>
      simp only [hs] at h
      cases hf : findTask ts id with
      | none => simp only [hf] at h; simp at h
      | some task =>
        simp only [hf] at h
        by_cases hperm : actor.role ≠ Role.admin ∧ task.assignedTo ≠ actor.id ∧
            task.createdBy ≠ actor.id
        case pos => rw [if_pos hperm] at h; simp at h
        rw [if_neg hperm] at h
        simp only [Prod.mk.injEq, Except.ok.injEq] at h
        obtain ⟨hts2, htask2⟩ := h
        set saved := presaveCompletedAt (decide (task.status ≠ st)) now
          { task with status := st } with hsaved
        have hsavedid : saved.id = task.id := by
          rw [hsaved, presave_id]
        have hsavedst : saved.status = st := by
          rw [hsaved, presave_status]
        have hfind2 : findTask ts2 id = some saved := by
          rw [← hts2]
          exact findTask_storeReplace hf hsavedid
        unfold updateTaskStatusRun
        rw [if_pos hv]
        simp only [hs, hfind2]
        have hperm2 : ¬ (actor.role ≠ Role.admin ∧ saved.assignedTo ≠ actor.id ∧
            saved.createdBy ≠ actor.id) := by
          rw [hsaved, presave_assignedTo, presave_createdBy]
          exact hperm
        rw [if_neg hperm2]
        have hnomod : decide (saved.status ≠ st) = false := by
          simp [hsavedst]
        have hself : { saved with status := st } = saved := with_status_self hsavedst
        simp only [hnomod, hself]
        have hps : presaveCompletedAt false nowLater saved = saved := rfl
        rw [hps, ← hts2, storeReplace_self, htask2]

/-- Witness for C2 at concrete inputs: the hook stamps `completedAt`, and a
repeated `setTaskStatus(..., "completed")` leaves the store and the stored
`completedAt` exactly as after the first call. -/
theorem presave_completedAt_correct_witness :
    (presaveCompletedAt true 5
        { sampleTask with status := Status.completed }).completedAt = some 5 ∧
    updateTaskStatusRun [sampleDone] ownerActor taskIdA "completed" 99 =
      ([sampleDone], Except.ok sampleDone) := by
  constructor
  · exact (presave_completedAt_correct.1
      { sampleTask with status := Status.completed } 5).1 rfl rfl
  · exact presave_completedAt_correct.2 [sampleTask] ownerActor taskIdA
      "completed" 7 99 [sampleDone] sampleDone (by decide)

/-! ### C6 -/

/-- C6: the read-time virtuals. `isOverdue` is true exactly when the task is
not completed and now is strictly past the due date (so always false for
completed tasks), and `daysUntilDue` is the signed whole-day difference
between the due date's calendar day and today's, negative when the due day
is already past. -/
theorem derived_fields_correct :
    ∀ (t : Task) (now : Int),
      (isOverdue t now = true ↔ (t.status ≠ Status.completed ∧ t.dueDate < now)) ∧
      (t.status = Status.completed → isOverdue t now = false) ∧
      (daysUntilDue t now = dayIndex t.dueDate - dayIndex now) ∧
      (dayIndex t.dueDate < dayIndex now → daysUntilDue t now < 0) := by
  intro t now
  have hdays : daysUntilDue t now = dayIndex t.dueDate - dayIndex now := by
    unfold daysUntilDue startOfDay jsCeilDiv
    have hD : msPerDay ≠ 0 := by decide
    rw [← Int.sub_mul, ← Int.neg_mul, Int.mul_ediv_cancel _ hD, Int.neg_neg]
  refine ⟨?_, ?_, hdays, ?_⟩
  · by_cases h : t.status = Status.completed
    · simp [isOverdue, h]
    · simp [isOverdue, h]
  · intro h
    simp [isOverdue, h]
  · intro h
    rw [hdays]
    omega

/-- `sampleTask` with a due date one-plus days in the past. -/
def overdueTask : Task := { sampleTask with dueDate := -100000000 }

/-- `overdueTask` marked completed. -/
def overdueDone : Task := { overdueTask with status := Status.completed }

/-- Witness for C6: a pending task due yesterday is overdue with a negative
`daysUntilDue`; completing it clears overdue-ness regardless of the date. -/
theorem derived_fields_correct_witness :
    isOverdue overdueTask 0 = true ∧
    daysUntilDue overdueTask 0 < 0 ∧
    isOverdue overdueDone 0 = false := by
  refine ⟨?_, ?_, ?_⟩
  · exact (derived_fields_correct overdueTask 0).1.mpr ⟨by decide, by decide⟩
  · exact (derived_fields_correct overdueTask 0).2.2.2 (by decide)
  · exact (derived_fields_correct overdueDone 0).2.1 rfl

/-! ### C3 -/

/-- C3: a non-admin actor who is neither creator nor assignee of an existing
task gets 403 from both `getTask` and `updateTask`, with the store left
unchanged; and `deleteTask` is 403 for every non-admin non-creator, even an
assignee. -/
theorem nonowner_forbidden :
    ∀ (ts : List Task) (us : List UserRec) (A : Actor) (id : String) (T : Task),
      A.role ≠ Role.admin →
      isValidObjectId id = true →
      findTask ts id = some T →
      T.assignedTo ≠ A.id →
      T.createdBy ≠ A.id →
      (getTaskByIdRun ts A id = Except.error (Failure.forbidden "Access denied")) ∧
      (∀ p, updateTaskRun ts us A id p =
        (ts, Except.error (Failure.forbidden "Access denied"))) ∧
      (∀ (A2 : Actor), A2.role ≠ Role.admin → T.createdBy ≠ A2.id →
        deleteTaskRun ts A2 id =
          (ts, Except.error
            (Failure.forbidden "Only task creator or admin can delete tasks"))) := by
  intro ts us A id T hrole hv hfind hna hnc
  refine ⟨?_, ?_, ?_⟩
  · unfold getTaskByIdRun
    rw [if_pos hv]
    simp only [hfind]
    rw [if_pos ⟨hrole, hna, hnc⟩]
  · intro p
    unfold updateTaskRun
    rw [if_pos hv]
    simp only [hfind]
    rw [if_pos ⟨hrole, hna, hnc⟩]
  · intro A2 hrole2 hnc2
    unfold deleteTaskRun
    rw [if_pos hv]
    simp only [hfind]
    rw [if_pos ⟨hrole2, hnc2⟩]

/-- Witness for C3: the stranger actor is denied on the sample task, and the
assignee (but non-creator) of `sharedTask` cannot delete it. -/
theorem nonowner_forbidden_witness :
    getTaskByIdRun [sampleTask] strangerActor taskIdA =
      Except.error (Failure.forbidden "Access denied") ∧
    deleteTaskRun [sharedTask] ownerActor taskIdA =
      (([sharedTask] : List Task),
        Except.error
          (Failure.forbidden "Only task creator or admin can delete tasks")) := by
  constructor
  · exact (nonowner_forbidden [sampleTask] [] strangerActor taskIdA sampleTask
      (by decide) (by decide) (by decide) (by decide) (by decide)).1
  · exact (nonowner_forbidden [sharedTask] [] outsiderActor taskIdA sharedTask
      (by decide) (by decide) (by decide) (by decide) (by decide)).2.2
      ownerActor (by decide) (by decide)

/-! ### C4 -/

theorem matchesTaskQuery_nonadmin {A : Actor} (p : ListParams)
    (x : Option String) (t : Task) (h : A.role ≠ Role.admin) :
    matchesTaskQuery A { p with assignedTo := x } t = matchesTaskQuery A p t := by
  unfold matchesTaskQuery
  rw [if_pos h, if_pos h]

/-- C4: for non-admin actors the `assignedTo` filter is forced to the actor's
own id, so the supplied `assignedTo` value is irrelevant to the result, and
every returned task is assigned to the actor. -/
theorem getTasks_nonadmin_scope :
    ∀ (ts : List Task) (A : Actor) (p : ListParams) (x : Option String),
      A.role ≠ Role.admin →
      (getTasksRun ts A { p with assignedTo := x } = getTasksRun ts A p) ∧
      (∀ t ∈ (getTasksRun ts A p).1, t.assignedTo = A.id) := by
  intro ts A p x hrole
  constructor
  · have hfilter : ts.filter (matchesTaskQuery A { p with assignedTo := x }) =
        ts.filter (matchesTaskQuery A p) := by
      apply List.filter_congr
      intro t _
      exact matchesTaskQuery_nonadmin p x t hrole
    unfold getTasksRun
    rw [hfilter]
  · intro t ht
    simp only [getTasksRun] at ht
    have h1 := List.mem_of_mem_take ht
    have h2 := List.mem_of_mem_drop h1
    have h3 : t ∈ ts.filter (matchesTaskQuery A p) := by
      unfold sortTasks at h2
      exact (List.mem_insertionSort _).1 h2
    have h4 := (List.mem_filter.1 h3).2
    unfold matchesTaskQuery at h4
    rw [if_pos hrole] at h4
    simp only [Bool.and_eq_true, decide_eq_true_eq] at h4
    exact h4.1.1.1

/-- Witness for C4: an owner's list is unchanged by a smuggled `assignedTo`
filter, and the theorem's scope conclusion holds on the sample store. -/
theorem getTasks_nonadmin_scope_witness :
    getTasksRun [sampleTask] ownerActor
        { assignedTo := some userIdOther } =
      getTasksRun [sampleTask] ownerActor {} := by
  exact (getTasks_nonadmin_scope [sampleTask] ownerActor {}
    (some userIdOther) (by decide)).1

/-! ### C5 -/

theorem take_add_split {α : Type} (l : List α) (m n : Nat) :
    l.take (m + n) = l.take m ++ (l.drop m).take n := by
  induction l generalizing m with
  | nil => simp
  | cons a t ih =>
    cases m with
    | zero => simp
    | succ m =>
      simp only [Nat.succ_add, List.take_succ_cons, List.drop_succ_cons,
        List.cons_append, List.cons.injEq, true_and]
      exact ih m

theorem chunks_flatten {α : Type} (k : Nat) :
    ∀ (n : Nat) (l : List α),
      (((List.range n).map (fun i => (l.drop (i * k)).take k)).flatten) =
        l.take (n * k) := by
  intro n
  induction n with
  | zero => intro l; simp
  | succ n ih =>
    intro l
    rw [List.range_succ, List.map_append, List.flatten_append]
    simp only [List.map_cons, List.map_nil, List.flatten_cons, List.flatten_nil,
      List.append_nil]
    rw [ih l, Nat.succ_mul, take_add_split]

theorem ceilDiv_shift {a k : Nat} (ha : 1 ≤ a) (hk : 1 ≤ k) :
    ceilDiv a k = (a - 1) / k + 1 := by
  unfold ceilDiv
  have h : a + k - 1 = (a - 1) + k := by omega
  rw [h, Nat.add_div_right _ hk]

theorem le_ceilDiv_mul (a k : Nat) (hk : 1 ≤ k) : a ≤ ceilDiv a k * k := by
  rcases Nat.eq_zero_or_pos a with h0 | ha
  · rw [h0]; exact Nat.zero_le _
  · rw [ceilDiv_shift ha hk]
    have h1 := Nat.div_add_mod (a - 1) k
    have h2 : (a - 1) % k < k := Nat.mod_lt _ hk
    calc a = k * ((a - 1) / k) + (a - 1) % k + 1 := by rw [h1]; omega
      _ = k * ((a - 1) / k) + ((a - 1) % k + 1) := by rw [Nat.add_assoc]
      _ ≤ k * ((a - 1) / k) + k := Nat.add_le_add_left h2 _
      _ = ((a - 1) / k + 1) * k := by rw [Nat.succ_mul, Nat.mul_comm]

theorem ceilDiv_pred_mul_lt (a k : Nat) (hk : 1 ≤ k) (ha : 1 ≤ a) :
    (ceilDiv a k - 1) * k < a := by
  rw [ceilDiv_shift ha hk, Nat.add_sub_cancel]
  calc (a - 1) / k * k ≤ a - 1 := Nat.div_mul_le_self _ _
    _ < a := Nat.sub_lt ha Nat.one_pos

/-- C5: for `page ≥ 1` and `limit ≥ 1`, `getTasks` pagination metadata is the
ceiling formula with its boundary booleans, `totalPages * limit` covers the
filtered total tightly, every page holds at most `limit` records, and the
concatenation of pages `1..totalPages` is exactly the sorted filtered list —
a permutation of the filtered record set, so no duplicate and no omission. -/
theorem getTasks_pagination_correct :
    ∀ (ts : List Task) (A : Actor) (p : ListParams),
      1 ≤ p.page → 1 ≤ p.limit →
      ((getTasksRun ts A p).2.totalPages =
        ceilDiv (getTasksRun ts A p).2.totalTasks p.limit) ∧
      ((getTasksRun ts A p).2.totalTasks ≤
        (getTasksRun ts A p).2.totalPages * p.limit) ∧
      (1 ≤ (getTasksRun ts A p).2.totalTasks →
        ((getTasksRun ts A p).2.totalPages - 1) * p.limit <
          (getTasksRun ts A p).2.totalTasks) ∧
      ((getTasksRun ts A p).2.hasNext =
        decide ((getTasksRun ts A p).2.currentPage <
          (getTasksRun ts A p).2.totalPages)) ∧
      ((getTasksRun ts A p).2.hasPrev =
        decide (1 < (getTasksRun ts A p).2.currentPage)) ∧
      ((getTasksRun ts A p).1.length ≤ p.limit) ∧
      ((((List.range (getTasksRun ts A p).2.totalPages).map
          (fun i => (getTasksRun ts A { p with page := i + 1 }).1)).flatten) =
        sortTasks p.sortBy p.sortOrder (ts.filter (matchesTaskQuery A p))) ∧
      (List.Perm (sortTasks p.sortBy p.sortOrder (ts.filter (matchesTaskQuery A p)))
        (ts.filter (matchesTaskQuery A p))) := by
  intro ts A p hpage hlimit
  have hperm : List.Perm
      (sortTasks p.sortBy p.sortOrder (ts.filter (matchesTaskQuery A p)))
      (ts.filter (matchesTaskQuery A p)) := by
    unfold sortTasks
    exact List.perm_insertionSort _ _
  have hlen : (sortTasks p.sortBy p.sortOrder
      (ts.filter (matchesTaskQuery A p))).length =
      (ts.filter (matchesTaskQuery A p)).length := hperm.length_eq
  refine ⟨rfl, ?_, ?_, rfl, rfl, ?_, ?_, hperm⟩
  · exact le_ceilDiv_mul _ _ hlimit
  · intro h
    exact ceilDiv_pred_mul_lt _ _ hlimit h
  · simp only [getTasksRun, List.length_take]
    exact Nat.min_le_left _ _
  · have hpagei : ∀ i : Nat, (getTasksRun ts A { p with page := i + 1 }).1 =
        ((sortTasks p.sortBy p.sortOrder
          (ts.filter (matchesTaskQuery A p))).drop (i * p.limit)).take p.limit := by
      intro i
      rfl
    calc (((List.range (getTasksRun ts A p).2.totalPages).map
          (fun i => (getTasksRun ts A { p with page := i + 1 }).1)).flatten)
        = (((List.range (getTasksRun ts A p).2.totalPages).map
            (fun i => ((sortTasks p.sortBy p.sortOrder
              (ts.filter (matchesTaskQuery A p))).drop (i * p.limit)).take
                p.limit)).flatten) := by
          congr 1
      _ = (sortTasks p.sortBy p.sortOrder
            (ts.filter (matchesTaskQuery A p))).take
              ((getTasksRun ts A p).2.totalPages * p.limit) :=
          chunks_flatten p.limit _ _
      _ = sortTasks p.sortBy p.sortOrder (ts.filter (matchesTaskQuery A p)) := by
          apply List.take_of_length_le
          rw [hlen]
          exact le_ceilDiv_mul _ _ hlimit

/-- Witness for C5 on a two-task store with `limit = 1`: two pages whose
concatenation is the filtered set. -/
theorem getTasks_pagination_correct_witness :
    ((getTasksRun [sampleTask, sharedTask] adminActor { limit := 1 }).2.totalPages =
      ceilDiv (getTasksRun [sampleTask, sharedTask] adminActor
        { limit := 1 }).2.totalTasks 1) ∧
    (((List.range (getTasksRun [sampleTask, sharedTask] adminActor
        { limit := 1 }).2.totalPages).map
        (fun i => (getTasksRun [sampleTask, sharedTask] adminActor
          { limit := 1, page := i + 1 }).1)).flatten) =
      sortTasks SortField.dueDate SortOrder.asc
        ([sampleTask, sharedTask].filter
          (matchesTaskQuery adminActor { limit := 1 })) := by
  constructor
  · exact (getTasks_pagination_correct [sampleTask, sharedTask] adminActor
      { limit := 1 } (by decide) (by decide)).1
  · exact (getTasks_pagination_correct [sampleTask, sharedTask] adminActor
      { limit := 1 } (by decide) (by decide)).2.2.2.2.2.2.1

/-! ### C7 -/

theorem user_id_of_find {us : List UserRec} {id : String} {u : UserRec}
    (hfind : findUserRec us id = some u) : u.id = id := by
  have h := List.find?_some
    (show us.find? (fun v => decide (v.id = id)) = some u from hfind)
  exact of_decide_eq_true h

/-- Branch form of `deleteUser` for an admin acting on an existing other
user: everything reduces to the referencing-task count. -/
theorem deleteUserRun_eq (tasks : List Task) {us : List UserRec} {A : Actor}
    {id : String} {u : UserRec}
    (hrole : A.role = Role.admin) (hv : isValidObjectId id = true)
    (hfind : findUserRec us id = some u) (hne : id ≠ A.id) :
    deleteUserRun us tasks A id =
      if 0 < countUserTasks tasks id then
        (us, Except.error
          (Failure.validation (deleteConflictMsg (countUserTasks tasks id))))
      else
        (us.filter (fun v => decide (v.id ≠ id)), Except.ok ()) := by
  have huid : u.id = id := user_id_of_find hfind
  have hnr : ¬ A.role ≠ Role.admin := by rw [hrole]; simp
  have hselfne : ¬ u.id = A.id := by rw [huid]; exact hne
  unfold deleteUserRun
  rw [if_neg hnr, if_pos hv]
  simp only [hfind]
  rw [if_neg hselfne]

theorem find_filter_ne_none (us : List UserRec) (id : String) :
    findUserRec (us.filter (fun v => decide (v.id ≠ id))) id = none := by
  apply List.find?_eq_none.mpr
  intro x hx
  have hx2 := (List.mem_filter.mp hx).2
  have hne : x.id ≠ id := of_decide_eq_true hx2
  simp [hne]

/-- C7: an admin deleting another existing user fails with a rejection and
leaves the user stored whenever some task references them as assignee or
creator, and succeeds with the user removed whenever no task does. -/
theorem deleteUser_reference_check :
    ∀ (us : List UserRec) (tasks : List Task) (A : Actor) (id : String)
      (u : UserRec),
      A.role = Role.admin →
      isValidObjectId id = true →
      findUserRec us id = some u →
      id ≠ A.id →
      ((0 < countUserTasks tasks id →
        deleteUserRun us tasks A id =
          (us, Except.error
            (Failure.validation (deleteConflictMsg (countUserTasks tasks id)))) ∧
        findUserRec (deleteUserRun us tasks A id).1 id = some u) ∧
      (countUserTasks tasks id = 0 →
        (deleteUserRun us tasks A id).2 = Except.ok () ∧
        findUserRec (deleteUserRun us tasks A id).1 id = none)) := by
  intro us tasks A id u hrole hv hfind hne
  have heq := deleteUserRun_eq tasks hrole hv hfind hne
  constructor
  · intro hcount
    rw [heq, if_pos hcount]
    exact ⟨rfl, hfind⟩
  · intro hcount
    rw [heq, if_neg (by rw [hcount]; simp)]
    exact ⟨rfl, find_filter_ne_none us id⟩

/-- Witness for C7: deleting the owner fails while the sample task references
them; deleting the unrelated user succeeds on the same store. -/
theorem deleteUser_reference_check_witness :
    (deleteUserRun usersStore [sampleTask] adminActor userIdOwner =
      (usersStore, Except.error
        (Failure.validation (deleteConflictMsg 1)))) ∧
    ((deleteUserRun usersStore [sampleTask] adminActor userIdOther).2 =
      Except.ok ()) := by
  constructor
  · exact (deleteUser_reference_check usersStore [sampleTask] adminActor
      userIdOwner ownerRec (by decide) (by decide) (by decide) (by decide)).1
      (by decide) |>.1
  · exact ((deleteUser_reference_check usersStore [sampleTask] adminActor
      userIdOther otherRec (by decide) (by decide) (by decide) (by decide)).2
      (by decide)).1

/-! ### C8 -/

/-- C8: the two admin self-protection carve-outs. `updateUser` on the admin's
own record with `isActive = false` fails and changes nothing; `deleteUser` on
the admin's own record fails and the record stays stored; and admins pass the
`adminAuth` gate, with neither handler ever answering 403 to an admin. -/
theorem admin_self_protection :
    ∀ (us : List UserRec) (tasks : List Task) (A : Actor) (u : UserRec),
      A.role = Role.admin →
      isValidObjectId A.id = true →
      findUserRec us A.id = some u →
      ((∀ p : UserPatch, p.isActive = some false →
        updateUserRun us A A.id p =
          (us, Except.error
            (Failure.validation "You cannot deactivate your own account"))) ∧
      (deleteUserRun us tasks A A.id =
        (us, Except.error
          (Failure.validation "You cannot delete your own account"))) ∧
      (findUserRec (deleteUserRun us tasks A A.id).1 A.id = some u) ∧
      (adminAuth A = Except.ok ()) ∧
      (∀ id p m, (updateUserRun us A id p).2 ≠
        Except.error (Failure.forbidden m)) ∧
      (∀ id m, (deleteUserRun us tasks A id).2 ≠
        Except.error (Failure.forbidden m))) := by
  intro us tasks A u hrole hv hfind
  have huid : u.id = A.id := user_id_of_find hfind
  have hnr : ¬ A.role ≠ Role.admin := by rw [hrole]; simp
  refine ⟨?_, ?_, ?_, ?_, ?_, ?_⟩
  · intro p hp
    have hcond : u.id = A.id ∧ p.isActive = some false := ⟨huid, hp⟩
    unfold updateUserRun
    rw [if_neg hnr, if_pos hv]
    simp only [hfind]
    rw [if_pos hcond]
  · unfold deleteUserRun
    rw [if_neg hnr, if_pos hv]
    simp only [hfind]
    rw [if_pos huid]
  · unfold deleteUserRun
    rw [if_neg hnr, if_pos hv]
    simp only [hfind]
    rw [if_pos huid]
    exact hfind
  · unfold adminAuth
    rw [if_neg hnr]
  · intro id p m
    unfold updateUserRun
    rw [if_neg hnr]
    split
    · split
      · simp
      · split
        · simp
        · split
          · simp
          · split
            · simp
            · simp
    · simp
  · intro id m
    unfold deleteUserRun
    rw [if_neg hnr]
    split
    · split
      · simp
      · split
        · simp
        · split
          · simp
          · simp
    · simp

/-- Witness for C8: the fixture admin cannot deactivate or delete their own
account, and the store keeps the admin record. -/
theorem admin_self_protection_witness :
    updateUserRun usersStore adminActor userIdAdmin { isActive := some false } =
      (usersStore, Except.error
        (Failure.validation "You cannot deactivate your own account")) ∧
    deleteUserRun usersStore [] adminActor userIdAdmin =
      (usersStore, Except.error
        (Failure.validation "You cannot delete your own account")) := by
  constructor
  · exact (admin_self_protection usersStore [] adminActor adminRec
      (by decide) (by decide) (by decide)).1 { isActive := some false } rfl
  · exact (admin_self_protection usersStore [] adminActor adminRec
      (by decide) (by decide) (by decide)).2.1

/-! ### C9 -/

/-- C9: `getUser`'s task statistics aggregate matches on `assignedTo` only,
so its total counts exactly the tasks assigned to the user and ignores tasks
they merely created; hence a user with `taskStats.total = 0` can still be
undeletable, because `deleteUser` counts assignee **or** creator references. -/
theorem userStats_assignee_only :
    ∀ (us : List UserRec) (tasks : List Task) (A : Actor) (id : String)
      (u : UserRec),
      A.role = Role.admin →
      isValidObjectId id = true →
      findUserRec us id = some u →
      ((getUserByIdRun us tasks A id = Except.ok (u, taskStatsFor tasks id)) ∧
      ((taskStatsFor tasks id).total =
        (tasks.filter (fun t => decide (t.assignedTo = id))).length) ∧
      ((∀ t ∈ tasks, t.assignedTo ≠ id) → (taskStatsFor tasks id).total = 0) ∧
      ((∀ t ∈ tasks, t.assignedTo ≠ id) → (∃ t ∈ tasks, t.createdBy = id) →
        id ≠ A.id →
        0 < countUserTasks tasks id ∧
        (deleteUserRun us tasks A id).2 =
          Except.error
            (Failure.validation (deleteConflictMsg (countUserTasks tasks id))))) := by
  intro us tasks A id u hrole hv hfind
  have hnr : ¬ A.role ≠ Role.admin := by rw [hrole]; simp
  have htotal0 : (∀ t ∈ tasks, t.assignedTo ≠ id) →
      (taskStatsFor tasks id).total = 0 := by
    intro hnone
    have hfil : tasks.filter (fun t => decide (t.assignedTo = id)) = [] := by
      apply List.filter_eq_nil_iff.mpr
      intro t ht
      simp [hnone t ht]
    simp [taskStatsFor, hfil]
  refine ⟨?_, rfl, htotal0, ?_⟩
  · unfold getUserByIdRun
    rw [if_neg hnr, if_pos hv]
    simp only [hfind]
  · intro hnone hcreated hne
    obtain ⟨t, ht, hc⟩ := hcreated
    have hmem : t ∈ tasks.filter
        (fun t => decide (t.assignedTo = id ∨ t.createdBy = id)) :=
      List.mem_filter.mpr ⟨ht, by simp [hc]⟩
    have hcount : 0 < countUserTasks tasks id := by
      unfold countUserTasks
      exact List.length_pos_of_mem hmem
    refine ⟨hcount, ?_⟩
    rw [deleteUserRun_eq tasks hrole hv hfind hne, if_pos hcount]

/-- Witness for C9: the unrelated user created `sharedTask` but is assigned
nothing, so their stats total is 0 while deletion is still rejected. -/
theorem userStats_assignee_only_witness :
    (taskStatsFor [sharedTask] userIdOther).total = 0 ∧
    0 < countUserTasks [sharedTask] userIdOther ∧
    (deleteUserRun usersStore [sharedTask] adminActor userIdOther).2 =
      Except.error (Failure.validation (deleteConflictMsg 1)) := by
  have h := userStats_assignee_only usersStore [sharedTask] adminActor
    userIdOther otherRec (by decide) (by decide) (by decide)
  have h4 := h.2.2.2 (by decide) ⟨sharedTask, by decide, by decide⟩ (by decide)
  exact ⟨h.2.2.1 (by decide), h4.1, h4.2⟩

/-! ### C10 -/

/-- C10: every task operation rejects a malformed ObjectId with the
`Invalid task ID` validation failure before touching the store, leaving it
unchanged; and a `Task not found` outcome arises only for a well-formed id
that matches no stored record. -/
theorem invalid_objectid_validation :
    ∀ (ts : List Task) (us : List UserRec) (A : Actor) (id : String)
      (p : TaskPatch) (s : String) (now : Int),
      (isValidObjectId id = false →
        getTaskByIdRun ts A id =
          Except.error (Failure.validation "Invalid task ID") ∧
        updateTaskRun ts us A id p =
          (ts, Except.error (Failure.validation "Invalid task ID")) ∧
        updateTaskStatusRun ts A id s now =
          (ts, Except.error (Failure.validation "Invalid task ID")) ∧
        deleteTaskRun ts A id =
          (ts, Except.error (Failure.validation "Invalid task ID"))) ∧
      (∀ m, getTaskByIdRun ts A id = Except.error (Failure.notFound m) →
        isValidObjectId id = true ∧ findTask ts id = none) ∧
      (∀ m, (updateTaskRun ts us A id p).2 = Except.error (Failure.notFound m) →
        isValidObjectId id = true ∧ findTask ts id = none) ∧
      (∀ m, (updateTaskStatusRun ts A id s now).2 =
          Except.error (Failure.notFound m) →
        isValidObjectId id = true ∧ findTask ts id = none) ∧
      (∀ m, (deleteTaskRun ts A id).2 = Except.error (Failure.notFound m) →
        isValidObjectId id = true ∧ findTask ts id = none) := by
  intro ts us A id p s now
  refine ⟨?_, ?_, ?_, ?_, ?_⟩
  · intro hv
    refine ⟨?_, ?_, ?_, ?_⟩
    · unfold getTaskByIdRun; rw [if_neg (by simp [hv])]
    · unfold updateTaskRun; rw [if_neg (by simp [hv])]
    · unfold updateTaskStatusRun; rw [if_neg (by simp [hv])]
    · unfold deleteTaskRun; rw [if_neg (by simp [hv])]
  · intro m hm
    unfold getTaskByIdRun at hm
    by_cases hv : isValidObjectId id = true
    case neg => rw [if_neg (by simpa using hv)] at hm; simp at hm
    rw [if_pos hv] at hm
    cases hf : findTask ts id with
    | none => exact ⟨hv, rfl⟩
    | some task =>
      simp only [hf] at hm
      split at hm <;> simp at hm
  · intro m hm
    unfold updateTaskRun at hm
    by_cases hv : isValidObjectId id = true
    case neg => rw [if_neg (by simpa using hv)] at hm; simp at hm
    rw [if_pos hv] at hm
    cases hf : findTask ts id with
    | none => exact ⟨hv, rfl⟩
    | some task =>
      simp only [hf] at hm
      split at hm
      · simp at hm
      · split at hm
        · split at hm <;> simp at hm
        · simp at hm
  · intro m hm
    unfold updateTaskStatusRun at hm
    by_cases hv : isValidObjectId id = true
    case neg => rw [if_neg (by simpa using hv)] at hm; simp at hm
    rw [if_pos hv] at hm
    cases hs : statusOfString s with
    | none => simp only [hs] at hm; simp at hm
    | some st =>
      simp only [hs] at hm
      cases hf : findTask ts id with
      | none => exact ⟨hv, rfl⟩
      | some task =>
        simp only [hf] at hm
        split at hm <;> simp at hm
  · intro m hm
    unfold deleteTaskRun at hm
    by_cases hv : isValidObjectId id = true
    case neg => rw [if_neg (by simpa using hv)] at hm; simp at hm
    rw [if_pos hv] at hm
    cases hf : findTask ts id with
    | none => exact ⟨hv, rfl⟩
    | some task =>
      simp only [hf] at hm
      split at hm <;> simp at hm

/-- Witness for C10: a malformed id is rejected up front, and the notFound
direction holds on an empty store with a well-formed unmatched id. -/
theorem invalid_objectid_validation_witness :
    getTaskByIdRun [sampleTask] ownerActor "nope" =
      Except.error (Failure.validation "Invalid task ID") ∧
    (isValidObjectId outsiderId = true ∧ findTask [] outsiderId = none) := by
  constructor
  · exact ((invalid_objectid_validation [sampleTask] [] ownerActor "nope"
      {} "completed" 0).1 (by decide)).1
  · exact (invalid_objectid_validation [] [] ownerActor outsiderId
      {} "completed" 0).2.1 "Task not found" (by decide)

end TaskMgmt
